import Mathlib

/-!
Shallow embedding of the tradmusicxml2abc converter (src/main.py, src/consts.py):
a MusicXML-derived score model (Key, TimeSignature, Note, Measure, Tune) and the
renderer producing the textual tune notation.  Durations are modelled as exact
rationals (Python computes `int(ticks) / 96`), machine integers as `Int`, and
Python `KeyError` propagation as `Except ScoreError`.
-/

namespace TradTune

/-- Error kinds raised by the converter.  Python raises `KeyError` in both
situations; the spec names them `UnknownKeyError` (missing entry of the
key-name table) and `MalformedScoreError` (missing required field). -/
inductive ScoreError where
  | unknownKey (fifths : Int) (mode : String)
  | malformed (field : String)
deriving DecidableEq

/-- Source `class Mode(Enum)` of src/main.py (MAJOR, MINOR). -/
inductive Mode where
  | major
  | minor
deriving DecidableEq

/-- Source `self.mode.name.lower()` as used in `Key.as_str` (src/main.py line 23). -/
def Mode.str : Mode → String
  | .major => "major"
  | .minor => "minor"

/-- The fixed `KEY_NAMES` table of src/consts.py, in source order. -/
def KEY_NAMES : List ((Int × String) × String) :=
  [ ((0, "major"), "C"),
    ((0, "minor"), "Am"),
    ((1, "major"), "G"),
    ((1, "minor"), "Em"),
    ((2, "major"), "D"),
    ((2, "minor"), "Bm"),
    ((3, "major"), "A"),
    ((3, "minor"), "F♯m"),
    ((4, "major"), "E"),
    ((4, "minor"), "C♯m"),
    ((5, "major"), "B"),
    ((5, "minor"), "G♯m"),
    ((6, "major"), "F♯"),
    ((6, "minor"), "D♯m"),
    ((-1, "major"), "F"),
    ((-1, "minor"), "Dm"),
    ((-2, "major"), "Bb"),
    ((-2, "minor"), "Gm"),
    ((-3, "major"), "Eb"),
    ((-3, "minor"), "Cm"),
    ((-4, "major"), "Ab"),
    ((-4, "minor"), "Fm"),
    ((-5, "major"), "Db"),
    ((-5, "minor"), "Bbm"),
    ((-6, "major"), "Gb"),
    ((-6, "minor"), "Ebm") ]

/-- Python dict lookup `KEY_NAMES[(fifths, mode)]`, as an association-list
lookup (the dict has pairwise distinct keys, so first match = the entry). -/
def lookupKeyName (k : Int × String) : Option String :=
  KEY_NAMES.lookup k

/-- Source `@dataclasses.dataclass class Key` (src/main.py lines 17-33). -/
structure Key where
  fifths : Int
  mode : Mode
deriving DecidableEq

/-- Source `Key.as_str` (src/main.py lines 22-23): dict lookup; a missing entry
raises (modelled as `ScoreError.unknownKey`). -/
def Key.as_str (k : Key) : Except ScoreError String :=
  match lookupKeyName (k.fifths, k.mode.str) with
  | some s => Except.ok s
  | none => Except.error (ScoreError.unknownKey k.fifths k.mode.str)

/-- Source `Key.print` (src/main.py lines 25-26); the lookup failure propagates. -/
def Key.print (k : Key) : Except ScoreError String :=
  match k.as_str with
  | Except.ok s => Except.ok ("Key: " ++ s ++ "\n")
  | Except.error e => Except.error e

/-- Source `@dataclasses.dataclass class TimeSignature` (src/main.py lines 36-52). -/
structure TimeSignature where
  upper : Int
  lower : Int
deriving DecidableEq

/-- Source `TimeSignature.as_str` (src/main.py lines 48-49). -/
def TimeSignature.as_str (ts : TimeSignature) : String :=
  toString ts.upper ++ "/" ++ toString ts.lower

/-- Source `TimeSignature.print` (src/main.py lines 51-52). -/
def TimeSignature.print (ts : TimeSignature) : String :=
  "Time Signature: " ++ ts.as_str ++ "\n"

/-- Source `@dataclasses.dataclass class Note` (src/main.py lines 55-63). -/
structure Note where
  value : String
  high : Bool
  low : Bool
  duration : Rat
  dotted : Bool
  flat : Bool := false
  sharp : Bool := false
deriving DecidableEq

/-- The fields of a structured note record that `Note.parse` reads:
pitch step and octave (strings in the parsed tree), the raw tick count
(already through `int(...)`), presence of the "dot" key, and the optional
pitch alteration. -/
structure NoteData where
  step : String
  octave : String
  duration : Int
  dotted : Bool
  alter : Option Int
deriving DecidableEq

/-- Source `Note.parse` (src/main.py lines 65-82): the C-asymmetric octave
classification, duration `ticks / 96`, and the truthiness-guarded
alteration handling (`if alter := ...` skips both `None` and `0`). -/
def Note.parse (d : NoteData) : Note :=
  let value := d.step
  let high := if value == "C" then d.octave == "6" else d.octave == "5"
  let low := if value == "C" then d.octave == "4" else d.octave == "3"
  let duration : Rat := (d.duration : Rat) / 96
  let note : Note :=
    { value := value, high := high, low := low, duration := duration, dotted := d.dotted }
  match d.alter with
  | none => note
  | some a => if a = 0 then note else { note with flat := a == -1, sharp := a == 1 }

/-- The `ending` sub-dictionary of a barline entry: optional `@type` and
`@number` attributes (the number already through `int(...)`). -/
structure EndingData where
  type : Option String
  number : Option Int
deriving DecidableEq

/-- The fields of a structured barline entry that `Measure.parse` reads.
`@location` is read unconditionally; `bar-style` and `repeat.@direction`
are plain indexing (a `KeyError`, i.e. `malformed`, when absent at the
point the code reads them); the ending chain uses `.get` with defaults. -/
structure BarlineData where
  location : String
  barStyle : Option String
  repeatDirection : Option String
  ending : Option EndingData
deriving DecidableEq

/-- An element of the measure's barline list: the code skips entries that
are not dictionaries (`if type(barline) is not dict: continue`). -/
inductive BarlineEntry where
  | unstructured
  | structured (d : BarlineData)
deriving DecidableEq

/-- Source `barline.get("ending", \x7b\x7d).get("@type", "")` (src/main.py line 107). -/
def endingTypeOf (b : BarlineData) : String :=
  match b.ending with
  | none => ""
  | some e => e.type.getD ""

/-- One iteration of the barline loop of `Measure.parse`
(src/main.py lines 99-108), acting on the state
(ending number, part_ending flag, repeat flag). -/
def scanBarline (st : Int × Bool × Bool) (e : BarlineEntry) :
    Except ScoreError (Int × Bool × Bool) :=
  match e with
  | .unstructured => Except.ok st
  | .structured b =>
    if b.location = "right" then
      match b.barStyle with
      | none => Except.error (ScoreError.malformed "bar-style")
      | some style =>
        if style = "light-light" then Except.ok (st.1, true, st.2.2)
        else
          match b.repeatDirection with
          | none => Except.error (ScoreError.malformed "repeat direction")
          | some dir =>
            if dir = "backward" then Except.ok (st.1, st.2.1, true)
            else Except.ok st
    else
      if endingTypeOf b = "start" then
        match b.ending with
        | none => Except.error (ScoreError.malformed "ending")
        | some e2 =>
          match e2.number with
          | none => Except.error (ScoreError.malformed "ending number")
          | some n => Except.ok (n, st.2.1, st.2.2)
      else Except.ok st

/-- The barline loop of `Measure.parse`, left to right. -/
def scanBarlines (st : Int × Bool × Bool) : List BarlineEntry →
    Except ScoreError (Int × Bool × Bool)
  | [] => Except.ok st
  | e :: rest =>
    match scanBarline st e with
    | Except.ok st2 => scanBarlines st2 rest
    | Except.error err => Except.error err

/-- An element of the measure's note list: non-dictionary entries are
skipped by `Measure.parse` (src/main.py lines 111-113). -/
inductive NoteEntry where
  | unstructured
  | structured (d : NoteData)
deriving DecidableEq

/-- The fields of a measure dictionary that `Measure.parse` reads:
its barline list, its `@number` (already through `int(...)`), and its
note list. -/
structure MeasureData where
  barlines : List BarlineEntry
  number : Int
  notes : List NoteEntry
deriving DecidableEq

/-- Source `@dataclasses.dataclass class Measure` (src/main.py lines 85-92). -/
structure Measure where
  number : Int
  notes : List Note
  ending : Int
  part : Int
  part_ending : Bool
  repeatFlag : Bool
deriving DecidableEq

/-- Source `Measure.parse` (src/main.py lines 94-124): scans the barline list,
parses the structured note entries, and returns the measure together
with its `part_ending` flag. -/
def Measure.parse (m : MeasureData) (part : Int) :
    Except ScoreError (Measure × Bool) :=
  match scanBarlines (0, false, false) m.barlines with
  | Except.error e => Except.error e
  | Except.ok (endingNum, partEnding, rep) =>
    let notes := m.notes.filterMap fun ne =>
      match ne with
      | .unstructured => none
      | .structured d => some (Note.parse d)
    Except.ok
      ({ number := m.number, notes := notes, ending := endingNum,
         part := part, part_ending := partEnding, repeatFlag := rep },
       partEnding)

/-- The three characters that appear literally in the string appended for a
part ending (src/main.py line 145): U+00E2, U+20AC, U+2013 — a
mojibake-encoded Unicode double bar line. -/
def doubleBar : String :=
  String.mk [Char.ofNat 226, Char.ofNat 8364, Char.ofNat 8211]

/-- The apostrophe character appended for a high-octave note
(src/main.py line 139). -/
def apostrophe : String := (Char.ofNat 39).toString

/-- Source `length = note.duration + 0.5 if note.dotted else note.duration`
(src/main.py line 132). -/
def noteLength (n : Note) : Rat :=
  if n.dotted then n.duration + 1/2 else n.duration

/-- Source `mid_point = ts.upper if ts.lower <= 4 else int(ts.upper / 2)`
(src/main.py line 133); Python `int(x / 2)` truncates toward zero,
i.e. `Int.tdiv`. -/
def midPoint (ts : TimeSignature) : Int :=
  if ts.lower ≤ 4 then ts.upper else Int.tdiv ts.upper 2

/-- One iteration of the note loop of `Measure.as_str`
(src/main.py lines 131-143), acting on (running position, output so far). -/
def renderStep (mid : Int) (acc : Rat × String) (note : Note) : Rat × String :=
  let count := acc.1
  let length := noteLength note
  let s1 := if count > 0 ∧ count ≤ (mid : Rat) ∧ count + length > (mid : Rat)
    then acc.2 ++ " " else acc.2
  let count2 := count + length
  let s2 := s1 ++ note.value
  let s3 := if note.high then s2 ++ apostrophe else s2
  let s4 := if note.low then s3 ++ "," else s3
  let s5 := if length > 1 then s4 ++ "- " else s4
  (count2, s5)

/-- Source `Measure.as_str` (src/main.py lines 126-150): optional ending label,
the note loop, then the closing decoration. -/
def Measure.as_str (m : Measure) (ts : TimeSignature) (numMeasures : Int) : String :=
  let pre := if m.ending ≠ 0 then toString m.ending ++ ") " else ""
  let body := (m.notes.foldl (renderStep (midPoint ts)) (0, pre)).2
  if m.part_ending then body ++ (" " ++ doubleBar ++ "\n")
  else if m.repeatFlag then body ++ " :| "
  else if m.number < numMeasures then body ++ " | "
  else body

/-- Source `@dataclasses.dataclass class Tune` (src/main.py lines 153-157). -/
structure Tune where
  time_signature : TimeSignature
  key : Key
  measures : List Measure
deriving DecidableEq

/-- The character U+0020. -/
def spaceChar : Char := Char.ofNat 32

/-- Python `str.replace("  ", " ")` on the character list: a left-to-right
scan replacing each non-overlapping occurrence of two spaces by one. -/
def pyReplaceAux : List Char → List Char
  | c1 :: c2 :: rest =>
    if c1 = spaceChar ∧ c2 = spaceChar then spaceChar :: pyReplaceAux rest
    else c1 :: pyReplaceAux (c2 :: rest)
  | [c] => [c]
  | [] => []

/-- Source `tune_str.replace("  ", " ")` (src/main.py line 165). -/
def pyReplaceDoubleSpace (s : String) : String :=
  String.mk (pyReplaceAux s.data)

/-- The value of `tune_str` in `Tune.as_str` (src/main.py lines 159-164)
just before the double-space replacement: the two header lines followed by
every rendered measure. -/
def Tune.raw_str (t : Tune) : Except ScoreError String :=
  match t.key.print with
  | Except.error e => Except.error e
  | Except.ok keyStr =>
    Except.ok (t.time_signature.print ++ keyStr ++
      t.measures.foldl
        (fun s m => s ++ m.as_str t.time_signature (t.measures.length : Int)) "")

/-- Source `Tune.as_str` (src/main.py lines 159-166). -/
def Tune.as_str (t : Tune) : Except ScoreError String :=
  match t.raw_str with
  | Except.error e => Except.error e
  | Except.ok s => Except.ok (pyReplaceDoubleSpace s)

/-! ### Decomposition of the renderer, used to state the claims -/

/-- The ending label emitted at the start of a rendered measure
(src/main.py lines 128-129): Python `if ending := self.ending:` is a
truthiness test, i.e. `ending ≠ 0`. -/
def measurePre (m : Measure) : String :=
  if m.ending ≠ 0 then toString m.ending ++ ") " else ""

/-- The closing decoration appended after the notes of a rendered measure
(src/main.py lines 144-150). -/
def tailMark (m : Measure) (numMeasures : Int) : String :=
  if m.part_ending then " " ++ doubleBar ++ "\n"
  else if m.repeatFlag then " :| "
  else if m.number < numMeasures then " | "
  else ""

/-- The text emitted for one note when the running position is `c`:
the optional mid-point space, the pitch letter, the octave marks, and the
optional sustain marker (src/main.py lines 131-143). -/
def noteChunk (mid : Int) (c : Rat) (n : Note) : String :=
  (if c > 0 ∧ c ≤ (mid : Rat) ∧ c + noteLength n > (mid : Rat) then " " else "") ++
    (n.value ++ ((if n.high then apostrophe else "") ++
      ((if n.low then "," else "") ++ (if noteLength n > 1 then "- " else ""))))

/-- The concatenation of the per-note chunks of a measure, starting from
running position `c`. -/
def joinChunks (mid : Int) : Rat → List Note → String
  | _, [] => ""
  | c, n :: rest => noteChunk mid c n ++ joinChunks mid (c + noteLength n) rest

/-- The total effective length of a note list. -/
def totalLen : List Note → Rat
  | [] => 0
  | n :: rest => noteLength n + totalLen rest

/-- The note-loop output of `Measure.as_str` on its own (the loop of
src/main.py lines 131-143 run from position 0 and the empty string). -/
def notesBody (mid : Int) (notes : List Note) : String :=
  (notes.foldl (renderStep mid) (0, "")).2

/-- Everything a rendered measure emits after its ending label. -/
def measureRest (m : Measure) (ts : TimeSignature) (numMeasures : Int) : String :=
  notesBody (midPoint ts) m.notes ++ tailMark m numMeasures

/-- For each note in order, whether the mid-point space condition of
src/main.py line 134 fires at that note, with `c` the running position
before the first listed note. -/
def firesList (mid : Int) : Rat → List Note → List Bool
  | _, [] => []
  | c, n :: rest =>
    decide (c > 0 ∧ c ≤ (mid : Rat) ∧ c + noteLength n > (mid : Rat)) ::
      firesList mid (c + noteLength n) rest

/-- The ending number contributed by one barline entry, per the `elif`
branch of src/main.py lines 107-108: only a structured entry whose
location is not "right" and whose ending marker has type "start". -/
def endingSetBy (e : BarlineEntry) : Option Int :=
  match e with
  | .unstructured => none
  | .structured b =>
    if ¬ b.location = "right" ∧ endingTypeOf b = "start" then
      match b.ending with
      | none => none
      | some e2 => e2.number
    else none

/-- Whether a barline-list entry is a structured entry on the right side. -/
def isRightBarline (e : BarlineEntry) : Bool :=
  match e with
  | .structured b => b.location == "right"
  | .unstructured => false

/-! ### The spec's double-space rule, for the refinement claim C10 -/

/-- Modelled from the spec: a maximal run of `k` spaces is replaced by a
single space exactly when `k = 2`, and left unchanged otherwise. -/
def emitRun (k : Nat) : List Char :=
  if k = 2 then [spaceChar] else List.replicate k spaceChar

/-- Modelled from the spec: collapse every run of exactly two consecutive
space characters into one, changing nothing else; `k` counts the spaces
of the run currently being read. -/
def collapseRunsAux : Nat → List Char → List Char
  | k, [] => emitRun k
  | k, c :: rest =>
    if c = spaceChar then collapseRunsAux (k + 1) rest
    else emitRun k ++ (c :: collapseRunsAux 0 rest)

/-- Modelled from the spec: the post-processing step as the spec words it
("collapse any run of exactly two consecutive space characters into
one"), to be compared with the source's `replace("  ", " ")`. -/
def collapseExactDoubleRuns (s : String) : String :=
  String.mk (collapseRunsAux 0 s.data)

/-- Decides that a character list contains no three consecutive spaces. -/
def noTripleSpace : List Char → Bool
  | c1 :: c2 :: c3 :: rest =>
    if c1 = spaceChar ∧ c2 = spaceChar ∧ c3 = spaceChar then false
    else noTripleSpace (c2 :: c3 :: rest)
  | _ => true

/-! ### Concrete data for witnesses, counterexamples and the C8 example -/

/-- 4/4 time. -/
def ts44 : TimeSignature := ⟨4, 4⟩

/-- 6/8 time (denominator above 4, so the mid-point is `6 / 2 = 3`). -/
def ts68 : TimeSignature := ⟨6, 8⟩

/-- A quarter note (duration 1) with no octave mark and no dot. -/
def noteQ (v : String) : Note :=
  { value := v, high := false, low := false, duration := 1, dotted := false }

/-- One measure holding the four quarter notes C, D, E, F. -/
def measureCDEF : Measure :=
  { number := 1, notes := [noteQ "C", noteQ "D", noteQ "E", noteQ "F"],
    ending := 0, part := 1, part_ending := false, repeatFlag := false }

/-- The concrete tune of the spec's worked example: 4/4, C major, one
measure of the four quarter notes C, D, E, F. -/
def tuneC8 : Tune :=
  { time_signature := ts44, key := ⟨0, Mode.major⟩, measures := [measureCDEF] }

/-- A measure holding a single note of effective length 5: its span 0..5
crosses the 4/4 mid-point 4, yet it starts at position 0. -/
def c1CexMeasure : Measure :=
  { number := 1, notes := [{ noteQ "C" with duration := 5 }],
    ending := 0, part := 1, part_ending := true, repeatFlag := false }

/-- An empty measure marked as a part ending. -/
def emptyPartEndingMeasure : Measure :=
  { number := 1, notes := [], ending := 0, part := 1,
    part_ending := true, repeatFlag := false }

/-- Measure data whose only barline sits on the right side with style
"light-light" while also carrying an ending marker of type "start" with
number 2. -/
def c2CexData : MeasureData :=
  { barlines := [BarlineEntry.structured
      { location := "right", barStyle := some "light-light",
        repeatDirection := none,
        ending := some { type := some "start", number := some 2 } }],
    number := 1, notes := [] }

/-- Measure data whose only barline sits on the left side and carries an
ending marker of type "start" with number 2. -/
def c2WitData : MeasureData :=
  { barlines := [BarlineEntry.structured
      { location := "left", barStyle := none, repeatDirection := none,
        ending := some { type := some "start", number := some 2 } }],
    number := 1, notes := [] }

/-- The measure `Measure.parse` produces from `c2WitData`. -/
def c2WitMeasure : Measure :=
  { number := 1, notes := [], ending := 2, part := 1,
    part_ending := false, repeatFlag := false }

/-- Measure data with two structured right-side barlines: one with style
"light-light", one with style "heavy" carrying a backward repeat. -/
def c4CexData : MeasureData :=
  { barlines :=
      [BarlineEntry.structured
        { location := "right", barStyle := some "light-light",
          repeatDirection := none, ending := none },
       BarlineEntry.structured
        { location := "right", barStyle := some "heavy",
          repeatDirection := some "backward", ending := none }],
    number := 1, notes := [] }

/-- Measure data with a single structured right-side barline of style
"light-light". -/
def c4WitData : MeasureData :=
  { barlines := [BarlineEntry.structured
      { location := "right", barStyle := some "light-light",
        repeatDirection := none, ending := none }],
    number := 1, notes := [] }

/-- A (fifths, mode) pair outside the key-name table. -/
def c5WitKey : Key := ⟨7, Mode.major⟩

deriving instance DecidableEq for Except

/-! ### Helper lemmas -/

theorem strAppend_assoc (a b c : String) : a ++ b ++ c = a ++ (b ++ c) := by
  cases a with
  | mk la =>
    cases b with
    | mk lb =>
      cases c with
      | mk lc =>
        show String.mk (la ++ lb ++ lc) = String.mk (la ++ (lb ++ lc))
        rw [List.append_assoc]

theorem strAppend_empty (a : String) : a ++ "" = a := by
  cases a with
  | mk la =>
    show String.mk (la ++ []) = String.mk la
    rw [List.append_nil]

theorem strEmpty_append (a : String) : "" ++ a = a := by
  cases a with
  | mk la =>
    show String.mk ([] ++ la) = String.mk la
    rw [List.nil_append]

/-- One renderer iteration appends exactly the note's chunk and advances
the position by the note's effective length. -/
theorem renderStep_eq (mid : Int) (c : Rat) (s : String) (n : Note) :
    renderStep mid (c, s) n = (c + noteLength n, s ++ noteChunk mid c n) := by
  unfold renderStep noteChunk
  by_cases h1 : c > 0 ∧ c ≤ (mid : Rat) ∧ c + noteLength n > (mid : Rat) <;>
    cases hh : n.high <;> cases hl : n.low <;>
      by_cases h2 : noteLength n > 1 <;>
        simp [h1, hh, hl, h2, strAppend_assoc, strAppend_empty, strEmpty_append]

/-- The note loop, started at position `c` with output `s`, ends at
`c` plus the total length with the chunks appended to `s`. -/
theorem foldl_renderStep (mid : Int) :
    ∀ (notes : List Note) (c : Rat) (s : String),
      notes.foldl (renderStep mid) (c, s) =
        (c + totalLen notes, s ++ joinChunks mid c notes) := by
  intro notes
  induction notes with
  | nil => intro c s; simp [totalLen, joinChunks, strAppend_empty]
  | cons n rest ih =>
    intro c s
    rw [List.foldl_cons, renderStep_eq, ih, totalLen, joinChunks]
    rw [strAppend_assoc, add_assoc]

theorem notesBody_eq (mid : Int) (notes : List Note) :
    notesBody mid notes = joinChunks mid 0 notes := by
  unfold notesBody
  rw [foldl_renderStep, strEmpty_append]

/-- Source `Measure.as_str` splits into the ending label, the note chunks and
the closing decoration. -/
theorem measure_as_str_decomp (m : Measure) (ts : TimeSignature) (k : Int) :
    Measure.as_str m ts k =
      measurePre m ++ (notesBody (midPoint ts) m.notes ++ tailMark m k) := by
  by_cases hp : m.part_ending <;> by_cases hr : m.repeatFlag <;>
    by_cases hn : m.number < k <;>
      simp [Measure.as_str, tailMark, measurePre, foldl_renderStep, notesBody_eq,
        hp, hr, hn, strAppend_assoc, strAppend_empty, strEmpty_append]

/-- Once the running position has passed the mid-point, the space
condition never fires again (effective lengths being nonnegative, the
position can only grow). -/
theorem firesList_past_mid (mid : Int) :
    ∀ (notes : List Note) (c : Rat), (∀ n ∈ notes, 0 ≤ noteLength n) →
      (mid : Rat) < c → (firesList mid c notes).count true = 0 := by
  intro notes
  induction notes with
  | nil => intro c _ _; rfl
  | cons n rest ih =>
    intro c hnn hc
    have hn : 0 ≤ noteLength n := hnn n (List.mem_cons_self n rest)
    have hcond : ¬ (c > 0 ∧ c ≤ (mid : Rat) ∧ c + noteLength n > (mid : Rat)) := by
      intro h
      exact absurd h.2.1 (not_le.mpr hc)
    have hrest : (firesList mid (c + noteLength n) rest).count true = 0 :=
      ih (c + noteLength n) (fun x hx => hnn x (List.mem_cons_of_mem n hx))
        (lt_of_lt_of_le hc (le_add_of_nonneg_right hn))
    simp [firesList, List.count_cons, hcond, hrest]

/-- The mid-point space condition fires at most once along a measure. -/
theorem firesList_count_le_one (mid : Int) :
    ∀ (notes : List Note) (c : Rat), (∀ n ∈ notes, 0 ≤ noteLength n) →
      (firesList mid c notes).count true ≤ 1 := by
  intro notes
  induction notes with
  | nil => intro c _; simp [firesList]
  | cons n rest ih =>
    intro c hnn
    have htail : ∀ x ∈ rest, 0 ≤ noteLength x :=
      fun x hx => hnn x (List.mem_cons_of_mem n hx)
    by_cases hcond : c > 0 ∧ c ≤ (mid : Rat) ∧ c + noteLength n > (mid : Rat)
    · have hrest : (firesList mid (c + noteLength n) rest).count true = 0 :=
        firesList_past_mid mid rest (c + noteLength n) htail hcond.2.2
      simp [firesList, List.count_cons, hcond, hrest]
    · have hrest := ih (c + noteLength n) htail
      simp only [firesList, List.count_cons]
      simp [hcond, hrest]

/-- C1.  The claim fails as stated: rendering the measure whose single
note has effective length 5 in 4/4 time (mid-point 4, so the note's span
0..5 crosses the mid-point), the mid-point space is inserted zero times,
not exactly once, because the space additionally requires the note to
start at a running position strictly greater than 0. -/
theorem midpoint_space_zero_fires :
    Measure.as_str c1CexMeasure ts44 1 = "C- " ++ (" " ++ doubleBar ++ "\n") ∧
      (firesList (midPoint ts44) 0 c1CexMeasure.notes).count true = 0 := by
  constructor
  · rfl
  · rfl

/-- C1 (amended).  A space is inserted before a note exactly when the
running position is greater than 0, at or before the mid-point, and the
position plus the note's effective length is strictly greater than the
mid-point (the condition recorded by `firesList` and reproduced inside
`noteChunk`); consequently, provided every effective length is
nonnegative, the space fires at most once per measure — for the first
note whose span crosses past the mid-point from a positive start — and
never for a note lying entirely before or entirely after it. -/
theorem midpoint_space_insertion (ts : TimeSignature) (m : Measure) (k : Int)
    (h : ∀ n ∈ m.notes, 0 ≤ noteLength n) :
    Measure.as_str m ts k =
      measurePre m ++ (joinChunks (midPoint ts) 0 m.notes ++ tailMark m k) ∧
      (firesList (midPoint ts) 0 m.notes).count true ≤ 1 := by
  constructor
  · rw [measure_as_str_decomp, notesBody_eq]
  · exact firesList_count_le_one (midPoint ts) m.notes 0 h

/-- Witness for C1 at 6/8 time (mid-point 3) with the four quarter notes
C, D, E, F: the space fires exactly once, before the fourth note. -/
theorem midpoint_space_insertion_witness :
    Measure.as_str measureCDEF ts68 1 =
      measurePre measureCDEF ++
        (joinChunks (midPoint ts68) 0 measureCDEF.notes ++ tailMark measureCDEF 1) ∧
      (firesList (midPoint ts68) 0 measureCDEF.notes).count true ≤ 1 :=
  midpoint_space_insertion ts68 measureCDEF 1 (by decide)

/-- C9.  One renderer iteration: the effective length is the duration
plus 0.5 exactly when dotted, the same length advances the running
position and decides the sustain marker, and the sustain marker "- " is
appended exactly when the effective length exceeds 1. -/
theorem effective_length_consistency (mid : Int) (c : Rat) (s : String) (n : Note) :
    renderStep mid (c, s) n =
      (c + (n.duration + (if n.dotted then (1 : Rat) / 2 else 0)),
       s ++ ((if c > 0 ∧ c ≤ (mid : Rat) ∧
              c + (n.duration + (if n.dotted then (1 : Rat) / 2 else 0)) > (mid : Rat)
            then " " else "") ++
         (n.value ++ ((if n.high then apostrophe else "") ++
           ((if n.low then "," else "") ++
             (if n.duration + (if n.dotted then (1 : Rat) / 2 else 0) > 1
              then "- " else "")))))) := by
  have hl : noteLength n = n.duration + (if n.dotted then (1 : Rat) / 2 else 0) := by
    unfold noteLength
    cases hd : n.dotted <;> simp
  rw [renderStep_eq, hl]
  unfold noteChunk
  rw [hl]

/-- C3 (amended).  Exactly one closing decoration follows the notes: a
part ending emits a space, the three characters U+00E2 U+20AC U+2013
(the source's mojibake-encoded double bar) and a newline, regardless of
the repeat and ending fields; otherwise a repeat emits " :| "; otherwise
" | " exactly when the measure number is below the measure count, so the
last measure gets no trailing barline. -/
theorem closing_decoration_choice (m : Measure) (ts : TimeSignature) (k : Int) :
    (m.part_ending = true →
      Measure.as_str m ts k =
        measurePre m ++ (notesBody (midPoint ts) m.notes ++ (" " ++ doubleBar ++ "\n"))) ∧
    (m.part_ending = false → m.repeatFlag = true →
      Measure.as_str m ts k =
        measurePre m ++ (notesBody (midPoint ts) m.notes ++ " :| ")) ∧
    (m.part_ending = false → m.repeatFlag = false → m.number < k →
      Measure.as_str m ts k =
        measurePre m ++ (notesBody (midPoint ts) m.notes ++ " | ")) ∧
    (m.part_ending = false → m.repeatFlag = false → ¬ m.number < k →
      Measure.as_str m ts k = measurePre m ++ notesBody (midPoint ts) m.notes) := by
  refine ⟨fun hp => ?_, fun hp hr => ?_, fun hp hr hn => ?_, fun hp hr hn => ?_⟩
  · rw [measure_as_str_decomp]; simp [tailMark, hp]
  · rw [measure_as_str_decomp]; simp [tailMark, hp, hr]
  · rw [measure_as_str_decomp]; simp [tailMark, hp, hr, hn]
  · rw [measure_as_str_decomp]; simp [tailMark, hp, hr, hn, strAppend_empty]

/-- Witness for C3: an empty part-ending measure renders as the ending
label (empty), the empty body and the mojibake double-bar decoration. -/
theorem closing_decoration_choice_witness :
    Measure.as_str emptyPartEndingMeasure ts44 2 =
      measurePre emptyPartEndingMeasure ++
        (notesBody (midPoint ts44) emptyPartEndingMeasure.notes ++
          (" " ++ doubleBar ++ "\n")) :=
  (closing_decoration_choice emptyPartEndingMeasure ts44 2).1 rfl

/-- C3 counterexample.  The part-ending decoration emitted by the code
is not the ASCII " ||\n" the claim states: the rendered empty part-ending
measure is the space, the three mojibake characters and a newline. -/
theorem part_ending_not_ascii_double_bar :
    Measure.as_str emptyPartEndingMeasure ts44 2 = " " ++ doubleBar ++ "\n" ∧
      " " ++ doubleBar ++ "\n" ≠ " ||\n" := by
  constructor
  · rfl
  · decide

/-- The barline scan leaves the ending number equal to the number of the
last entry that sets it (a non-right structured entry with an ending
marker of type "start"), defaulting to the incoming state. -/
theorem scanBarlines_ending :
    ∀ (entries : List BarlineEntry) (st st2 : Int × Bool × Bool),
      scanBarlines st entries = Except.ok st2 →
      st2.1 = (entries.filterMap endingSetBy).getLastD st.1 := by
  intro entries
  induction entries with
  | nil =>
    intro st st2 h
    cases h
    rfl
  | cons e rest ih =>
    intro st st2 h
    rw [scanBarlines] at h
    cases hse : scanBarline st e with
    | error err => rw [hse] at h; cases h
    | ok stm =>
      rw [hse] at h
      have hmid := ih stm st2 h
      cases e with
      | unstructured =>
        cases hse
        simpa [List.filterMap_cons, endingSetBy] using hmid
      | structured b =>
        by_cases hloc : b.location = "right"
        · have hnum : stm.1 = st.1 := by
            rw [scanBarline] at hse
            simp only [hloc, if_true] at hse
            cases hbs : b.barStyle with
            | none => rw [hbs] at hse; cases hse
            | some style =>
              rw [hbs] at hse
              by_cases hst : style = "light-light"
              · simp [hst] at hse; cases hse; rfl
              · simp [hst] at hse
                cases hrd : b.repeatDirection with
                | none => rw [hrd] at hse; cases hse
                | some dir =>
                  rw [hrd] at hse
                  by_cases hd : dir = "backward"
                  · simp [hd] at hse; cases hse; rfl
                  · simp [hd] at hse; cases hse; rfl
          have hset : endingSetBy (BarlineEntry.structured b) = none := by
            simp [endingSetBy, hloc]
          simp only [List.filterMap_cons, hset]
          rw [hmid, hnum]
        · by_cases hty : endingTypeOf b = "start"
          · cases hed : b.ending with
            | none =>
              exfalso
              rw [endingTypeOf, hed] at hty
              exact absurd hty (by decide)
            | some e2 =>
              cases hn : e2.number with
              | none =>
                exfalso
                rw [scanBarline] at hse
                simp [hloc, hty, hed, hn] at hse
              | some num =>
                have hstm : stm = (num, st.2.1, st.2.2) := by
                  rw [scanBarline] at hse
                  simp [hloc, hty, hed, hn] at hse
                  exact hse.symm
                have hset : endingSetBy (BarlineEntry.structured b) = some num := by
                  simp [endingSetBy, hloc, hty, hed, hn]
                rw [List.filterMap_cons, hset]
                rw [List.getLastD_cons]
                rw [hmid, hstm]
          · have hstm : stm = st := by
              rw [scanBarline] at hse
              simp [hloc, hty] at hse
              exact hse.symm
            have hset : endingSetBy (BarlineEntry.structured b) = none := by
              simp [endingSetBy, hloc, hty]
            simp only [List.filterMap_cons, hset]
            rw [hmid, hstm]

/-- C2 (amended).  On a successful parse, the measure's ending field is
the number of the last barline entry that is structured, sits on a side
other than "right" and carries an ending marker of type "start" (0 when
no such entry exists) — right-side barlines never set it; and the
renderer emits the label "<ending>) " before any note content exactly
when the ending field is nonzero. -/
theorem ending_from_left_barlines (d : MeasureData) (p : Int) (m : Measure)
    (pe : Bool) (ts : TimeSignature) (k : Int)
    (h : Measure.parse d p = Except.ok (m, pe)) :
    m.ending = (d.barlines.filterMap endingSetBy).getLastD 0 ∧
      Measure.as_str m ts k =
        (if m.ending ≠ 0 then toString m.ending ++ ") " else "") ++
          measureRest m ts k := by
  constructor
  · unfold Measure.parse at h
    cases hs : scanBarlines (0, false, false) d.barlines with
    | error err => rw [hs] at h; cases h
    | ok st =>
      rw [hs] at h
      have hend := scanBarlines_ending d.barlines (0, false, false) st hs
      obtain ⟨num, pe2, rep2⟩ := st
      simp only [Except.ok.injEq, Prod.mk.injEq] at h
      have hm : m.ending = num := by rw [← h.1]
      rw [hm]
      exact hend
  · rw [measure_as_str_decomp]
    rfl

/-- Witness for C2: a single left-side barline with an ending marker of
type "start" and number 2 yields ending 2, rendered as the label "2) ". -/
theorem ending_from_left_barlines_witness :
    c2WitMeasure.ending = (c2WitData.barlines.filterMap endingSetBy).getLastD 0 ∧
      Measure.as_str c2WitMeasure ts44 3 =
        (if c2WitMeasure.ending ≠ 0
          then toString c2WitMeasure.ending ++ ") " else "") ++
          measureRest c2WitMeasure ts44 3 :=
  ending_from_left_barlines c2WitData 1 c2WitMeasure false ts44 3 rfl

/-- C2 counterexample.  A right-side barline carrying an ending marker of
type "start" with number 2 does not set the ending field: the `elif` of
src/main.py line 107 only runs for non-right locations, so the parsed
measure has ending 0 where the claim ("regardless of its side/location")
demands 2. -/
theorem right_barline_ending_ignored :
    Measure.parse c2CexData 1 =
      Except.ok ({ number := 1, notes := [], ending := 0, part := 1,
                   part_ending := true, repeatFlag := false }, true) ∧
      (0 : Int) ≠ 2 := by
  constructor
  · rfl
  · decide

/-- A scan over entries containing no structured right-side barline
leaves both closing flags unchanged. -/
theorem scanBarlines_no_right_flags :
    ∀ (entries : List BarlineEntry) (st st2 : Int × Bool × Bool),
      (∀ e ∈ entries, isRightBarline e = false) →
      scanBarlines st entries = Except.ok st2 → st2.2 = st.2 := by
  intro entries
  induction entries with
  | nil =>
    intro st st2 _ h
    cases h
    rfl
  | cons e rest ih =>
    intro st st2 hnr h
    rw [scanBarlines] at h
    cases hse : scanBarline st e with
    | error err => rw [hse] at h; cases h
    | ok stm =>
      rw [hse] at h
      have htail := ih stm st2 (fun x hx => hnr x (List.mem_cons_of_mem e hx)) h
      rw [htail]
      cases e with
      | unstructured => cases hse; rfl
      | structured b =>
        have hloc : ¬ b.location = "right" := by
          have := hnr (BarlineEntry.structured b) (List.mem_cons_self _ _)
          simpa [isRightBarline] using this
        rw [scanBarline] at hse
        simp only [hloc, if_false] at hse
        by_cases hty : endingTypeOf b = "start"
        · cases hed : b.ending with
          | none =>
            exfalso
            rw [endingTypeOf, hed] at hty
            exact absurd hty (by decide)
          | some e2 =>
            cases hn : e2.number with
            | none => simp [hty, hed, hn] at hse
            | some num =>
              simp [hty, hed, hn] at hse
              rw [← hse]
        · simp [hty] at hse
          rw [← hse]

/-- A scan started with both closing flags clear, over entries containing
at most one structured right-side barline, cannot set both flags. -/
theorem scanBarlines_flags_le_one :
    ∀ (entries : List BarlineEntry) (n : Int) (st2 : Int × Bool × Bool),
      entries.countP isRightBarline ≤ 1 →
      scanBarlines (n, false, false) entries = Except.ok st2 →
      ¬ (st2.2.1 = true ∧ st2.2.2 = true) := by
  intro entries
  induction entries with
  | nil =>
    intro n st2 _ h
    cases h
    simp
  | cons e rest ih =>
    intro n st2 hcount h
    rw [scanBarlines] at h
    cases hse : scanBarline (n, false, false) e with
    | error err => rw [hse] at h; cases h
    | ok stm =>
      rw [hse] at h
      cases hr : isRightBarline e with
      | false =>
        have hcr : rest.countP isRightBarline ≤ 1 := by
          rw [List.countP_cons, hr] at hcount
          simpa using hcount
        have hstm : stm.2 = (false, false) := by
          cases e with
          | unstructured => cases hse; rfl
          | structured b =>
            have hloc : ¬ b.location = "right" := by
              simpa [isRightBarline] using hr
            rw [scanBarline] at hse
            simp only [hloc, if_false] at hse
            by_cases hty : endingTypeOf b = "start"
            · cases hed : b.ending with
              | none =>
                exfalso
                rw [endingTypeOf, hed] at hty
                exact absurd hty (by decide)
              | some e2 =>
                cases hn : e2.number with
                | none => simp [hty, hed, hn] at hse
                | some num =>
                  simp [hty, hed, hn] at hse
                  rw [← hse]
            · simp [hty] at hse
              rw [← hse]
        obtain ⟨num, pe2, rep2⟩ := stm
        simp only [Prod.mk.injEq] at hstm
        rw [hstm.1, hstm.2] at h
        exact ih num st2 hcr h
      | true =>
        have hnr : ∀ x ∈ rest, isRightBarline x = false := by
          rw [List.countP_cons, hr] at hcount
          simpa using hcount
        have hflags := scanBarlines_no_right_flags rest stm st2 hnr h
        have hstm : ¬ (stm.2.1 = true ∧ stm.2.2 = true) := by
          cases e with
          | unstructured => simp [isRightBarline] at hr
          | structured b =>
            have hloc : b.location = "right" := by
              simpa [isRightBarline] using hr
            rw [scanBarline] at hse
            simp only [hloc, if_true] at hse
            cases hbs : b.barStyle with
            | none => rw [hbs] at hse; cases hse
            | some style =>
              rw [hbs] at hse
              by_cases hst : style = "light-light"
              · simp [hst] at hse
                rw [← hse]
                simp
              · simp [hst] at hse
                cases hrd : b.repeatDirection with
                | none => rw [hrd] at hse; cases hse
                | some dir =>
                  rw [hrd] at hse
                  by_cases hd : dir = "backward"
                  · simp [hd] at hse
                    rw [← hse]
                    simp
                  · simp [hd] at hse
                    rw [← hse]
                    simp
        rw [hflags]
        exact hstm

/-- C4 (amended).  Whenever the input measure's barline list contains at
most one structured right-side barline entry, at most one of
part_ending and repeat is true on the parsed measure (a single entry
takes the if/elif branches exclusively); with two or more right-side
entries the code can set both, as the counterexample shows.  `ending`
may co-occur with either. -/
theorem flags_exclusive_single_right_barline (d : MeasureData) (p : Int)
    (m : Measure) (pe : Bool)
    (hcount : d.barlines.countP isRightBarline ≤ 1)
    (h : Measure.parse d p = Except.ok (m, pe)) :
    ¬ (m.part_ending = true ∧ m.repeatFlag = true) := by
  unfold Measure.parse at h
  cases hs : scanBarlines (0, false, false) d.barlines with
  | error err => rw [hs] at h; cases h
  | ok st =>
    rw [hs] at h
    have hflags := scanBarlines_flags_le_one d.barlines 0 st hcount hs
    obtain ⟨num, pe2, rep2⟩ := st
    simp only [Except.ok.injEq, Prod.mk.injEq] at h
    have hpe : m.part_ending = pe2 := by rw [← h.1]
    have hrep : m.repeatFlag = rep2 := by rw [← h.1]
    rw [hpe, hrep]
    exact hflags

/-- Witness for C4: a single right-side "light-light" barline sets
part_ending only. -/
theorem flags_exclusive_witness :
    ¬ (({ number := 1, notes := [], ending := 0, part := 1,
          part_ending := true, repeatFlag := false } : Measure).part_ending = true ∧
       ({ number := 1, notes := [], ending := 0, part := 1,
          part_ending := true, repeatFlag := false } : Measure).repeatFlag = true) :=
  flags_exclusive_single_right_barline c4WitData 1 _ true (by decide) rfl

/-- C4 counterexample.  With two structured right-side barlines — one of
style "light-light", one of style "heavy" with a backward repeat — the
parsed measure has part_ending and repeat both true, refuting the
claimed invariant for arbitrary barline lists. -/
theorem two_right_barlines_both_flags :
    (Measure.parse c4CexData 1).map (fun pr => (pr.1.part_ending, pr.1.repeatFlag)) =
      Except.ok (true, true) := rfl

/-- C5.  A (fifths, mode) pair with no entry in the key-name table makes
`Key.as_str` fail with the unknown-key error, and that same error
propagates unmodified through `Key.print` and `Tune.as_str` — no
fallback key name is substituted and nothing swallows it. -/
theorem unknown_key_error_propagates (k : Key) (ts : TimeSignature)
    (ms : List Measure) (h : lookupKeyName (k.fifths, k.mode.str) = none) :
    Key.as_str k = Except.error (ScoreError.unknownKey k.fifths k.mode.str) ∧
      Key.print k = Except.error (ScoreError.unknownKey k.fifths k.mode.str) ∧
      Tune.as_str ⟨ts, k, ms⟩ =
        Except.error (ScoreError.unknownKey k.fifths k.mode.str) := by
  have h1 : Key.as_str k = Except.error (ScoreError.unknownKey k.fifths k.mode.str) := by
    unfold Key.as_str
    rw [h]
  have h2 : Key.print k = Except.error (ScoreError.unknownKey k.fifths k.mode.str) := by
    unfold Key.print
    rw [h1]
  refine ⟨h1, h2, ?_⟩
  unfold Tune.as_str Tune.raw_str
  rw [h2]

/-- Witness for C5 at the concrete pair (7, major), absent from the table. -/
theorem unknown_key_error_propagates_witness :
    Key.as_str c5WitKey = Except.error (ScoreError.unknownKey c5WitKey.fifths c5WitKey.mode.str) ∧
      Key.print c5WitKey = Except.error (ScoreError.unknownKey c5WitKey.fifths c5WitKey.mode.str) ∧
      Tune.as_str ⟨ts44, c5WitKey, []⟩ =
        Except.error (ScoreError.unknownKey c5WitKey.fifths c5WitKey.mode.str) :=
  unknown_key_error_propagates c5WitKey ts44 [] rfl

/-- C6.  On every pair present in the key-name table, `Key.as_str`
returns exactly the table's literal; in particular fifths -5 major
resolves to "Db" and fifths 6 minor to the sharp minor label. -/
theorem key_table_roundtrip :
    (∀ (k : Key) (s : String),
        lookupKeyName (k.fifths, k.mode.str) = some s →
          Key.as_str k = Except.ok s) ∧
      Key.as_str ⟨-5, Mode.major⟩ = Except.ok "Db" ∧
      Key.as_str ⟨6, Mode.minor⟩ = Except.ok "D♯m" := by
  refine ⟨fun k s h => ?_, rfl, rfl⟩
  unfold Key.as_str
  rw [h]

/-- Witness for C6 at the concrete pair (0, major). -/
theorem key_table_roundtrip_witness :
    Key.as_str ⟨0, Mode.major⟩ = Except.ok "C" :=
  key_table_roundtrip.1 ⟨0, Mode.major⟩ "C" rfl

/-- C7.  The octave flags of a parsed note follow the C-asymmetric
classification: for pitch letter "C" the high flag holds exactly at
written octave "6" and the low flag exactly at "4"; for every other
letter the break points sit one octave lower, at "5" and "3". -/
theorem octave_classification (d : NoteData) :
    ((Note.parse d).high = true ↔
      d.octave = (if d.step = "C" then "6" else "5")) ∧
    ((Note.parse d).low = true ↔
      d.octave = (if d.step = "C" then "4" else "3")) := by
  unfold Note.parse
  cases ha : d.alter with
  | none =>
    by_cases hc : d.step = "C" <;> simp [hc]
  | some a =>
    by_cases h0 : a = 0 <;> by_cases hc : d.step = "C" <;> simp [h0, hc]

/-- When the key resolves, `Tune.as_str` is the double-space replacement
of the two header lines followed by the folded measures. -/
theorem tune_as_str_ok (t : Tune) (ks : String)
    (hk : t.key.print = Except.ok ks) :
    t.as_str = Except.ok (pyReplaceDoubleSpace (t.time_signature.print ++ ks ++
      t.measures.foldl
        (fun s m => s ++ m.as_str t.time_signature (t.measures.length : Int)) "")) := by
  unfold Tune.as_str Tune.raw_str
  rw [hk]

/-- C8.  The worked example: 4/4 time, C major, one measure of the four
quarter notes C, D, E, F renders to exactly the two header lines followed
by "CDEF" — no mid-measure space (no span crosses the mid-point 4 from a
positive position) and no trailing barline, this being the last measure. -/
theorem example_tune_rendering :
    Tune.as_str tuneC8 = Except.ok "Time Signature: 4/4\nKey: C\nCDEF" := by
  have hm : Measure.as_str measureCDEF ts44 1 = "CDEF" := by
    rw [measure_as_str_decomp, notesBody_eq]
    norm_num [measurePre, tailMark, joinChunks, noteChunk, noteLength, midPoint,
      measureCDEF, noteQ, ts44, apostrophe]
    decide
  rw [tune_as_str_ok tuneC8 "Key: C\n" rfl]
  have hfold : tuneC8.measures.foldl
      (fun s m => s ++ m.as_str tuneC8.time_signature (tuneC8.measures.length : Int)) "" =
      "CDEF" := by
    show "" ++ Measure.as_str measureCDEF tuneC8.time_signature
      (tuneC8.measures.length : Int) = "CDEF"
    rw [strEmpty_append]
    exact hm
  rw [hfold]
  decide

theorem noTripleSpace_tail (c : Char) (l : List Char)
    (h : noTripleSpace (c :: l) = true) : noTripleSpace l = true := by
  cases l with
  | nil => rfl
  | cons c2 t2 =>
    cases t2 with
    | nil => rfl
    | cons c3 r =>
      rw [noTripleSpace] at h
      by_cases hc : c = spaceChar ∧ c2 = spaceChar ∧ c3 = spaceChar
      · rw [if_pos hc] at h
        cases h
      · rw [if_neg hc] at h
        exact h

theorem pyReplaceAux_cons_ne (c : Char) (l : List Char) (hc : ¬ c = spaceChar) :
    pyReplaceAux (c :: l) = c :: pyReplaceAux l := by
  cases l with
  | nil => rfl
  | cons c2 r =>
    rw [pyReplaceAux, if_neg (fun h => hc h.1)]

theorem collapseRunsAux_cons_ne (c : Char) (l : List Char) (hc : ¬ c = spaceChar) :
    collapseRunsAux 0 (c :: l) = c :: collapseRunsAux 0 l := by
  rw [collapseRunsAux, if_neg hc]
  rfl

/-- On strings with no run of three or more spaces, the source's
left-to-right double-space replacement coincides with the spec's
"collapse runs of exactly two spaces" rule. -/
theorem pyReplaceAux_eq_collapse :
    ∀ (N : Nat) (l : List Char), l.length ≤ N → noTripleSpace l = true →
      pyReplaceAux l = collapseRunsAux 0 l := by
  intro N
  induction N with
  | zero =>
    intro l hlen _
    have hl : l = [] := List.eq_nil_of_length_eq_zero (Nat.le_zero.mp hlen)
    subst hl
    rfl
  | succ N ih =>
    intro l hlen hnt
    cases l with
    | nil => rfl
    | cons c1 t1 =>
      cases t1 with
      | nil =>
        by_cases h1 : c1 = spaceChar
        · subst h1
          rfl
        · rw [collapseRunsAux_cons_ne c1 [] h1]
          rfl
      | cons c2 rest =>
        by_cases h1 : c1 = spaceChar
        · by_cases h2 : c2 = spaceChar
          · subst h1
            subst h2
            cases rest with
            | nil => rfl
            | cons c3 r =>
              have h3 : ¬ c3 = spaceChar := by
                intro h3
                subst h3
                rw [noTripleSpace, if_pos ⟨rfl, rfl, rfl⟩] at hnt
                cases hnt
              have hnr : noTripleSpace r = true :=
                noTripleSpace_tail _ _ (noTripleSpace_tail _ _
                  (noTripleSpace_tail _ _ hnt))
              have hlr : r.length ≤ N := by
                simp only [List.length_cons] at hlen
                omega
              have hr := ih r hlr hnr
              rw [pyReplaceAux, if_pos ⟨rfl, rfl⟩]
              rw [pyReplaceAux_cons_ne c3 r h3]
              rw [collapseRunsAux, if_pos rfl]
              rw [collapseRunsAux, if_pos rfl]
              rw [collapseRunsAux, if_neg h3]
              rw [hr]
              rfl
          · have hnr : noTripleSpace (c2 :: rest) = true :=
              noTripleSpace_tail _ _ hnt
            have hlr : (c2 :: rest).length ≤ N := by
              simp only [List.length_cons] at hlen ⊢
              omega
            have hrec := ih (c2 :: rest) hlr hnr
            rw [pyReplaceAux, if_neg (fun h => h2 h.2)]
            rw [pyReplaceAux_cons_ne c2 rest h2] at hrec ⊢
            subst h1
            rw [collapseRunsAux, if_pos rfl]
            rw [collapseRunsAux, if_neg h2]
            have hrec2 : pyReplaceAux rest = collapseRunsAux 0 rest := by
              have := hrec
              rw [collapseRunsAux_cons_ne c2 rest h2] at this
              exact (List.cons.inj this).2
            rw [hrec2]
            rfl
        · have hnr : noTripleSpace (c2 :: rest) = true :=
            noTripleSpace_tail _ _ hnt
          have hlr : (c2 :: rest).length ≤ N := by
            simp only [List.length_cons] at hlen ⊢
            omega
          have hrec := ih (c2 :: rest) hlr hnr
          rw [pyReplaceAux_cons_ne c1 (c2 :: rest) h1]
          rw [collapseRunsAux_cons_ne c1 (c2 :: rest) h1]
          rw [hrec]

/-- The raw (pre-replacement) string of the worked-example tune. -/
theorem tuneC8_raw_str :
    Tune.raw_str tuneC8 = Except.ok "Time Signature: 4/4\nKey: C\nCDEF" := by
  have hm : Measure.as_str measureCDEF ts44 1 = "CDEF" := by
    rw [measure_as_str_decomp, notesBody_eq]
    norm_num [measurePre, tailMark, joinChunks, noteChunk, noteLength, midPoint,
      measureCDEF, noteQ, ts44, apostrophe]
    decide
  unfold Tune.raw_str
  have hk : tuneC8.key.print = Except.ok "Key: C\n" := rfl
  rw [hk]
  have hfold : tuneC8.measures.foldl
      (fun s m => s ++ m.as_str tuneC8.time_signature (tuneC8.measures.length : Int)) "" =
      "CDEF" := by
    show "" ++ Measure.as_str measureCDEF tuneC8.time_signature
      (tuneC8.measures.length : Int) = "CDEF"
    rw [strEmpty_append]
    exact hm
  rw [hfold]
  decide

/-- C10.  Whenever the pre-replacement concatenation of the two header
lines and the rendered measures contains no run of three or more spaces
(as is the case for pitch-letter note values, whose renderer output never
puts more than two spaces together), the final string of `Tune.as_str` is
exactly that concatenation with every run of exactly two consecutive
spaces collapsed into one and nothing else changed. -/
theorem double_space_collapse (t : Tune) (raw : String)
    (hraw : Tune.raw_str t = Except.ok raw)
    (hnt : noTripleSpace raw.data = true) :
    Tune.as_str t = Except.ok (collapseExactDoubleRuns raw) := by
  unfold Tune.as_str
  rw [hraw]
  show Except.ok (String.mk (pyReplaceAux raw.data)) =
    Except.ok (String.mk (collapseRunsAux 0 raw.data))
  rw [pyReplaceAux_eq_collapse raw.data.length raw.data (Nat.le_refl _) hnt]

/-- Witness for C10 on the worked-example tune, whose raw rendering
"Time Signature: 4/4\nKey: C\nCDEF" has no triple space. -/
theorem double_space_collapse_witness :
    Tune.as_str tuneC8 =
      Except.ok (collapseExactDoubleRuns "Time Signature: 4/4\nKey: C\nCDEF") :=
  double_space_collapse tuneC8 "Time Signature: 4/4\nKey: C\nCDEF"
    tuneC8_raw_str (by decide)

end TradTune
